import Mathlib

/-!
Verification development for the videosdk session-fetch/export service
(`src/main.py`).  The Python source is shallowly embedded below:

* `month_start_end_epoch_ms` — the UTC month-range computation, built on an
  embedding of CPython's proleptic-Gregorian ordinal arithmetic
  (`datetime(y, m, 1, tzinfo=utc).timestamp()`).
* `fetchLoop` / `fetchSessionsWith` / `fetch_sessions` — the paginated fetch
  loop.  The HTTP upstream is a function from requests to responses; the
  loop is instrumented to also return the list of requests it issued, and
  takes a fuel parameter because the Python `while True` loop need not
  terminate for an adversarial upstream (`none` = fuel exhausted).
* `generate_csv_rows` — the pure row/header construction of `generate_csv`
  (the CSV file writing itself is the identity on this data).
* `generate_csv_stream` — the SSE streaming variant: the event list it
  yields and the `csv_files` registry it updates.  Runtime exceptions
  inside the row-writing loop are modelled by an injected failure point
  (`failRowAt`/`failMsg`), since in the pure embedding row construction
  itself cannot raise.
* `download_csv` — the download endpoint over the `csv_files` registry.

JSON scalar values are modelled by `JVal`; Python truthiness of such a
value by `truthy`.  Python `min`/`max` on lists of values are `pymin`/
`pymax`, folding with the comparison `jlt` (numbers by value, strings
lexicographically; comparisons across constructors never occur for the
homogeneous upstream data assumed by the service and are given an
arbitrary fixed order here).
-/

/-- JSON scalar value as handled by the Python code (null, number, string). -/
inductive JVal where
  | jnull : JVal
  | jnum : Int → JVal
  | jstr : String → JVal
deriving DecidableEq, Repr

/-- Python truthiness of a JSON scalar: `None`, `0` and `""` are falsy. -/
def truthy : JVal → Bool
  | .jnull => false
  | .jnum n => n ≠ 0
  | .jstr s => s ≠ ""

/-- Python `<` on JSON scalars.  Numbers compare by value, strings
lexicographically.  Python raises `TypeError` on cross-type comparison;
the upstream data is assumed homogeneous, and cross-constructor order is
fixed arbitrarily (null < number < string) to keep the function total. -/
def jlt : JVal → JVal → Bool
  | .jnull, .jnull => false
  | .jnull, _ => true
  | .jnum _, .jnull => false
  | .jnum a, .jnum b => a < b
  | .jnum _, .jstr _ => true
  | .jstr _, .jnull => false
  | .jstr _, .jnum _ => false
  | .jstr a, .jstr b => a < b

/-- Python `<=` on JSON scalars (same conventions as `jlt`). -/
def jle (a b : JVal) : Bool := !(jlt b a)

/-- Python `min` over a list: keep the first element, replace it whenever a
later element is strictly smaller.  `none` on the empty list (`ValueError`). -/
def pymin : List JVal → Option JVal
  | [] => none
  | x :: xs => some (xs.foldl (fun m v => if jlt v m then v else m) x)

/-- Python `max` over a list: keep the first element, replace it whenever a
later element is strictly larger.  `none` on the empty list (`ValueError`). -/
def pymax : List JVal → Option JVal
  | [] => none
  | x :: xs => some (xs.foldl (fun m v => if jlt m v then v else m) x)

/-! ## Calendar arithmetic (CPython `datetime`, proleptic Gregorian) -/

/-- Leap year test, as in CPython's `datetime` module. -/
def isLeap (y : Int) : Bool := (y % 4 = 0 ∧ ¬ y % 100 = 0) ∨ y % 400 = 0

/-- Days in the given month of the given year. -/
def daysInMonth (y m : Int) : Int :=
  if m = 2 then (if isLeap y then 29 else 28)
  else if m = 4 ∨ m = 6 ∨ m = 9 ∨ m = 11 then 30 else 31

/-- Number of days before January 1 of year `y` (CPython `_days_before_year`). -/
def daysBeforeYear (y : Int) : Int :=
  365 * (y - 1) + (y - 1) / 4 - (y - 1) / 100 + (y - 1) / 400

/-- Number of days in year `y` preceding the first of month `m`
(CPython `_days_before_month`: a fixed table plus a leap adjustment). -/
def daysBeforeMonth (y m : Int) : Int :=
  (if m = 1 then 0 else if m = 2 then 31 else if m = 3 then 59
   else if m = 4 then 90 else if m = 5 then 120 else if m = 6 then 151
   else if m = 7 then 181 else if m = 8 then 212 else if m = 9 then 243
   else if m = 10 then 273 else if m = 11 then 304 else 334)
  + (if 2 < m ∧ isLeap y then 1 else 0)

/-- Proleptic-Gregorian ordinal of a date (CPython `date.toordinal`):
day count with 0001-01-01 = 1. -/
def ymd2ord (y m d : Int) : Int := daysBeforeYear y + daysBeforeMonth y m + d

/-- `date(1970, 1, 1).toordinal()`. -/
def epochOrd : Int := 719163

/-- POSIX timestamp in seconds of a UTC datetime, as computed by
`datetime(y, m, d, h, mi, s, tzinfo=timezone.utc).timestamp()`. -/
def utcTimestampSec (y m d h mi s : Int) : Int :=
  (ymd2ord y m d - epochOrd) * 86400 + h * 3600 + mi * 60 + s

/-- Embedding of `month_start_end_epoch_ms(year, month)` (src/main.py:27):
start of the month and one second before the start of the next month,
both as epoch milliseconds. -/
def month_start_end_epoch_ms (year month : Int) : Int × Int :=
  let start_s := utcTimestampSec year month 1 0 0 0
  let next_s := if month = 12 then utcTimestampSec (year + 1) 1 1 0 0 0
                else utcTimestampSec year (month + 1) 1 0 0 0
  (start_s * 1000, (next_s - 1) * 1000)

/-! ## The paginated fetch (`fetch_sessions`, src/main.py:47) -/

/-- `PER_PAGE = 20` (src/main.py:20). -/
def PER_PAGE : Nat := 20

/-- The query parameters of one upstream request
(`{"page": page, "perPage": PER_PAGE, "startDate": start_ms, "endDate": end_ms}`). -/
structure Request where
  page : Nat
  perPage : Nat
  startDate : Int
  endDate : Int
deriving DecidableEq, Repr

/-- An upstream HTTP response, reduced to the parts the code reads:
status code, raw body text, and the JSON fields `data` (defaulting to `[]`),
`pageInfo.currentPage` and `pageInfo.lastPage` (`none` = key absent; an
absent `pageInfo` object is the same as both keys absent).  The session
payload type is a parameter. -/
structure HttpResp (α : Type) where
  status : Nat
  text : String
  dataField : List α
  currentPage : Option Int
  lastPage : Option Int
deriving DecidableEq, Repr

/-- `fastapi.HTTPException(status_code, detail)`, the single exception type
the service raises. -/
structure HTTPException where
  status_code : Nat
  detail : String
deriving DecidableEq, Repr

/-- The `HTTPException(404, ...)` raised when the accumulated session list
is empty (src/main.py:70). -/
def noDataError : HTTPException :=
  ⟨404, "No sessions found for given month/year"⟩

/-- The request issued for a given page (fixed `perPage` and month bounds). -/
def mkRequest (page : Nat) (startDate endDate : Int) : Request :=
  ⟨page, PER_PAGE, startDate, endDate⟩

/-- The loop-exit test of src/main.py:64:
`page_info.get("currentPage", page) >= page_info.get("lastPage", page)` —
both envelope fields default to the current page counter when absent. -/
def stopsAt (resp : HttpResp α) (page : Nat) : Bool :=
  resp.currentPage.getD (page : Int) ≥ resp.lastPage.getD (page : Int)

/-- The `while True` loop of `fetch_sessions` (src/main.py:52-67), over an
upstream oracle.  Returns the list of requests issued together with the
outcome: `none` when the fuel ran out (the Python loop would still be
running), `some (.error e)` for the `HTTPException` raised on a non-200
status, `some (.ok acc)` for normal exit. -/
def fetchLoop (u : Request → HttpResp α) (s e : Int) :
    Nat → List α → Nat → List Request × Option (Except HTTPException (List α))
  | _, _, 0 => ([], none)
  | page, acc, fuel + 1 =>
    let req := mkRequest page s e
    let resp := u req
    if resp.status ≠ 200 then
      ([req], some (.error ⟨resp.status, resp.text⟩))
    else
      let acc' := acc ++ resp.dataField
      if stopsAt resp page then
        ([req], some (.ok acc'))
      else
        let rest := fetchLoop u s e (page + 1) acc' fuel
        (req :: rest.1, rest.2)

/-- The post-loop emptiness check of src/main.py:69-70: an empty
accumulated list becomes `noDataError`, everything else passes through. -/
def postCheck : Except HTTPException (List α) → Except HTTPException (List α)
  | .ok l => if l.isEmpty then .error noDataError else .ok l
  | .error er => .error er

/-- `fetch_sessions` for explicit range bounds: run the loop from page 1
with an empty accumulator, then raise `noDataError` if the accumulated
list is empty (src/main.py:69-72). -/
def fetchSessionsWith (u : Request → HttpResp α) (s e : Int) (fuel : Nat) :
    List Request × Option (Except HTTPException (List α)) :=
  ((fetchLoop u s e 1 [] fuel).1, ((fetchLoop u s e 1 [] fuel).2).map postCheck)

/-- Embedding of `fetch_sessions(api_key, year, month)` (src/main.py:47):
compute the month bounds, then fetch all pages.  The API key only feeds the
`Authorization` header and is absorbed into the upstream oracle. -/
def fetch_sessions (u : Request → HttpResp α) (year month : Int) (fuel : Nat) :
    List Request × Option (Except HTTPException (List α)) :=
  fetchSessionsWith u (month_start_end_epoch_ms year month).1
    (month_start_end_epoch_ms year month).2 fuel

/-! ## C7: the month range -/

theorem ymd2ord_next_month (y m : Int) (h1 : 1 ≤ m) (h2 : m ≤ 11) :
    ymd2ord y (m + 1) 1 = ymd2ord y m (daysInMonth y m) + 1 := by
  interval_cases m <;> cases hL : isLeap y <;>
    simp [ymd2ord, daysBeforeMonth, daysInMonth, hL] <;> omega

theorem ymd2ord_december (y : Int) :
    ymd2ord (y + 1) 1 1 = ymd2ord y 12 31 + 1 := by
  cases hL : isLeap y <;>
  · simp only [isLeap, decide_eq_true_eq, decide_eq_false_iff_not] at hL
    simp [ymd2ord, daysBeforeMonth, daysBeforeYear, isLeap]
    omega

/-- C7: for every year and month in [1,12], `month_start_end_epoch_ms`
returns start_ms = the epoch-millisecond instant of day 1, 00:00:00 UTC of
that month, and end_ms = 23:59:59 UTC of the month's last day, which is
exactly one second before the first instant of the following UTC month
(December of year y rolling over to January of year y+1). -/
theorem monthRange_correct (y m : Int) (h1 : 1 ≤ m) (h2 : m ≤ 12) :
    (month_start_end_epoch_ms y m).1 = 1000 * utcTimestampSec y m 1 0 0 0 ∧
    (month_start_end_epoch_ms y m).2 = 1000 * utcTimestampSec y m (daysInMonth y m) 23 59 59 ∧
    (month_start_end_epoch_ms y m).2 =
      (month_start_end_epoch_ms (if m = 12 then y + 1 else y)
        (if m = 12 then 1 else m + 1)).1 - 1000 := by
  by_cases hm : m = 12
  · subst hm
    have hd := ymd2ord_december y
    have hdim : daysInMonth y 12 = 31 := by simp [daysInMonth]
    refine ⟨by simp [month_start_end_epoch_ms]; ring, ?_, ?_⟩
    · rw [hdim]
      simp [month_start_end_epoch_ms, utcTimestampSec]
      omega
    · simp [month_start_end_epoch_ms, utcTimestampSec]
      omega
  · have hnext := ymd2ord_next_month y m h1 (by omega)
    refine ⟨by simp [month_start_end_epoch_ms]; ring, ?_, ?_⟩
    · simp only [month_start_end_epoch_ms, utcTimestampSec, if_neg hm]
      omega
    · simp only [month_start_end_epoch_ms, utcTimestampSec, if_neg hm]
      omega

/-- Witness for C7 at year 2024, month 2 (a leap February). -/
theorem monthRange_correct_witness :
    (1 : Int) ≤ 2 ∧ (2 : Int) ≤ 12 ∧
    ((month_start_end_epoch_ms 2024 2).1 = 1000 * utcTimestampSec 2024 2 1 0 0 0 ∧
     (month_start_end_epoch_ms 2024 2).2 =
       1000 * utcTimestampSec 2024 2 (daysInMonth 2024 2) 23 59 59 ∧
     (month_start_end_epoch_ms 2024 2).2 =
       (month_start_end_epoch_ms (if (2 : Int) = 12 then 2024 + 1 else 2024)
         (if (2 : Int) = 12 then 1 else 2 + 1)).1 - 1000) :=
  ⟨by norm_num, by norm_num, monthRange_correct 2024 2 (by norm_num) (by norm_num)⟩

/-! ## Structure of the fetch loop -/

theorem fetchLoop_succ (u : Request → HttpResp α) (s e : Int) (page : Nat)
    (acc : List α) (fuel : Nat) :
    fetchLoop u s e page acc (fuel + 1) =
      if (u (mkRequest page s e)).status ≠ 200 then
        ([mkRequest page s e],
         some (.error ⟨(u (mkRequest page s e)).status, (u (mkRequest page s e)).text⟩))
      else if stopsAt (u (mkRequest page s e)) page then
        ([mkRequest page s e], some (.ok (acc ++ (u (mkRequest page s e)).dataField)))
      else
        (mkRequest page s e ::
           (fetchLoop u s e (page + 1) (acc ++ (u (mkRequest page s e)).dataField) fuel).1,
         (fetchLoop u s e (page + 1) (acc ++ (u (mkRequest page s e)).dataField) fuel).2) :=
  rfl

/-- Whatever happens, the requests issued by the loop are exactly the pages
`page, page+1, ...` in order, each with the fixed `perPage` and the given
time-range bounds. -/
theorem fetchLoop_trace_shape (u : Request → HttpResp α) (s e : Int) :
    ∀ (fuel page : Nat) (acc : List α), ∃ n, n ≤ fuel ∧
      (fetchLoop u s e page acc fuel).1
        = (List.range' page n).map (fun p => mkRequest p s e) := by
  intro fuel
  induction fuel with
  | zero => exact fun page acc => ⟨0, Nat.le_refl 0, by simp [fetchLoop]⟩
  | succ fuel ih =>
    intro page acc
    rw [fetchLoop_succ]
    split
    · exact ⟨1, by omega, by simp⟩
    · split
      · exact ⟨1, by omega, by simp⟩
      · obtain ⟨n, hn, htr⟩ := ih (page + 1) (acc ++ (u (mkRequest page s e)).dataField)
        exact ⟨n + 1, by omega, by simp [List.range'_succ, htr]⟩

/-- Full characterisation of a normal loop exit: the trace is pages
`page..page+n-1`, the result is the accumulator followed by the pages'
records concatenated in page order, every issued request got a 200, the
continuation test failed on every page but the last, and succeeded on the
last. -/
theorem fetchLoop_ok_spec (u : Request → HttpResp α) (s e : Int) :
    ∀ (fuel page : Nat) (acc l : List α) (tr : List Request),
      fetchLoop u s e page acc fuel = (tr, some (.ok l)) →
      ∃ n, 0 < n ∧ n ≤ fuel ∧
        tr = (List.range' page n).map (fun p => mkRequest p s e) ∧
        l = acc ++ (tr.map (fun r => (u r).dataField)).join ∧
        (∀ p, page ≤ p → p < page + n → (u (mkRequest p s e)).status = 200) ∧
        (∀ p, page ≤ p → p + 1 < page + n → stopsAt (u (mkRequest p s e)) p = false) ∧
        stopsAt (u (mkRequest (page + n - 1) s e)) (page + n - 1) = true := by
  intro fuel
  induction fuel with
  | zero => intro page acc l tr h; simp [fetchLoop] at h
  | succ fuel ih =>
    intro page acc l tr h
    rw [fetchLoop_succ] at h
    split at h
    · -- non-200: the outcome is an error, contradicting the ok hypothesis
      simp only [Prod.mk.injEq, Option.some.injEq] at h
      exact absurd h.2 (by simp)
    · next h200 =>
      rw [not_not] at h200
      split at h
      · next hstop =>
        simp only [Prod.mk.injEq, Option.some.injEq, Except.ok.injEq] at h
        obtain ⟨htr, hl⟩ := h
        refine ⟨1, Nat.one_pos, by omega, by simp [htr.symm], ?_, ?_, ?_, ?_⟩
        · simp [htr.symm, hl.symm]
        · intro p hp1 hp2
          have : p = page := by omega
          subst this; exact h200
        · intro p hp1 hp2; omega
        · simpa using hstop
      · next hstop =>
        simp only [Prod.mk.injEq] at h
        obtain ⟨htr, hout⟩ := h
        have hrec : fetchLoop u s e (page + 1)
            (acc ++ (u (mkRequest page s e)).dataField) fuel
            = ((fetchLoop u s e (page + 1)
                  (acc ++ (u (mkRequest page s e)).dataField) fuel).1,
               some (.ok l)) := by
          rw [← hout]
        obtain ⟨n, hnpos, hnle, htr', hl', h200', hns', hstop'⟩ :=
          ih (page + 1) (acc ++ (u (mkRequest page s e)).dataField) l _ hrec
        refine ⟨n + 1, by omega, by omega, ?_, ?_, ?_, ?_, ?_⟩
        · rw [← htr, htr', List.range'_succ]
          simp
        · rw [← htr, hl']
          simp [htr', List.append_assoc]
        · intro p hp1 hp2
          rcases Nat.eq_or_lt_of_le hp1 with hpe | hplt
          · subst hpe; exact h200
          · exact h200' p (by omega) (by omega)
        · intro p hp1 hp2
          rcases Nat.eq_or_lt_of_le hp1 with hpe | hplt
          · subst hpe
            simpa using hstop
          · exact hns' p (by omega) (by omega)
        · have : page + (n + 1) - 1 = page + 1 + n - 1 := by omega
          rw [this]; exact hstop'

theorem fetchSessionsWith_ok_inv {u : Request → HttpResp α} {s e : Int} {fuel : Nat}
    {tr : List Request} {l : List α}
    (h : fetchSessionsWith u s e fuel = (tr, some (.ok l))) :
    fetchLoop u s e 1 [] fuel = (tr, some (.ok l)) ∧ l ≠ [] := by
  unfold fetchSessionsWith at h
  simp only [Prod.mk.injEq] at h
  obtain ⟨htr, hmap⟩ := h
  rcases hout : (fetchLoop u s e 1 [] fuel).2 with _ | r
  · rw [hout] at hmap; simp at hmap
  · rw [hout] at hmap
    simp only [Option.map_some', Option.some.injEq] at hmap
    match r, hmap with
    | .error er, hmap => simp [postCheck] at hmap
    | .ok l₀, hmap =>
      rcases l₀ with _ | ⟨a, l₀⟩
      · simp [postCheck] at hmap
      · simp only [postCheck, List.isEmpty_cons, if_neg] at hmap
        rw [if_neg (by simp)] at hmap
        have hl : a :: l₀ = l := by simpa using hmap
        subst hl
        refine ⟨?_, by simp⟩
        rw [← htr, ← hout]

/-- C1 (amended): every fetch invocation starts its page counter at 1 and
issues requests for consecutive pages, each with fixed page size 20 and the
month's time-range bounds; on normal termination the result is the
concatenation of all pages' records in page order, and the fetch stopped
exactly when `currentPage >= lastPage`, both read from the response
envelope and each defaulting to the *current page counter* (not 1) when
absent: the test failed on every page but the last and succeeded on the
last. -/
theorem fetch_sessions_pagination (u : Request → HttpResp α) (year month : Int)
    (fuel : Nat) (tr : List Request) (out : Option (Except HTTPException (List α)))
    (h : fetch_sessions u year month fuel = (tr, out)) :
    (∃ n, n ≤ fuel ∧ tr = (List.range' 1 n).map
        (fun p => mkRequest p (month_start_end_epoch_ms year month).1
            (month_start_end_epoch_ms year month).2)) ∧
    (∀ r ∈ tr, r.perPage = 20 ∧
        r.startDate = (month_start_end_epoch_ms year month).1 ∧
        r.endDate = (month_start_end_epoch_ms year month).2) ∧
    (∀ l, out = some (.ok l) →
        l = (tr.map (fun r => (u r).dataField)).join ∧
        tr.length ≠ 0 ∧
        (∀ p, 1 ≤ p → p + 1 < 1 + tr.length →
          stopsAt (u (mkRequest p (month_start_end_epoch_ms year month).1
              (month_start_end_epoch_ms year month).2)) p = false) ∧
        stopsAt (u (mkRequest tr.length (month_start_end_epoch_ms year month).1
            (month_start_end_epoch_ms year month).2)) tr.length = true) := by
  unfold fetch_sessions at h
  have htr : tr = (fetchLoop u (month_start_end_epoch_ms year month).1
      (month_start_end_epoch_ms year month).2 1 [] fuel).1 := by
    have h1 := congrArg Prod.fst h
    simpa [fetchSessionsWith] using h1.symm
  refine ⟨?_, ?_, ?_⟩
  · obtain ⟨n, hn, hshape⟩ := fetchLoop_trace_shape u
      (month_start_end_epoch_ms year month).1 (month_start_end_epoch_ms year month).2
      fuel 1 []
    exact ⟨n, hn, by rw [htr, hshape]⟩
  · obtain ⟨n, hn, hshape⟩ := fetchLoop_trace_shape u
      (month_start_end_epoch_ms year month).1 (month_start_end_epoch_ms year month).2
      fuel 1 []
    rw [htr, hshape]
    intro r hr
    simp only [List.mem_map] at hr
    obtain ⟨p, _, rfl⟩ := hr
    exact ⟨rfl, rfl, rfl⟩
  · intro l hl
    rw [hl] at h
    obtain ⟨hloop, hne⟩ := fetchSessionsWith_ok_inv h
    obtain ⟨n, hnpos, hnle, hshape, hjoin, _, hns, hstop⟩ :=
      fetchLoop_ok_spec u (month_start_end_epoch_ms year month).1
        (month_start_end_epoch_ms year month).2 fuel 1 [] l tr hloop
    have hlen : tr.length = n := by rw [hshape]; simp
    refine ⟨by simpa using hjoin, by omega, ?_, ?_⟩
    · intro p hp1 hp2
      exact hns p hp1 (by omega)
    · have : tr.length = 1 + n - 1 := by omega
      rw [this]
      exact hstop

/-- Three-page mocked upstream (the spec's pagination test scenario):
`lastPage = 3`, pages 1-3 carry records 10,11 / 12 / 13. -/
def mock3U : Request → HttpResp Nat := fun r =>
  if r.page = 1 then ⟨200, "", [10, 11], some 1, some 3⟩
  else if r.page = 2 then ⟨200, "", [12], some 2, some 3⟩
  else if r.page = 3 then ⟨200, "", [13], some 3, some 3⟩
  else ⟨200, "", [], some 1, some 1⟩

/-- Witness for C1 on the three-page mocked upstream: the fetch issues
exactly the requests for pages 1,2,3 with `perPage = 20` and the January
2024 bounds, and yields the three pages' records concatenated in order. -/
theorem fetch_sessions_pagination_witness :
    (∃ n, n ≤ 9 ∧
        [mkRequest 1 1704067200000 1706745599000,
         mkRequest 2 1704067200000 1706745599000,
         mkRequest 3 1704067200000 1706745599000] = (List.range' 1 n).map
        (fun p => mkRequest p (month_start_end_epoch_ms 2024 1).1
            (month_start_end_epoch_ms 2024 1).2)) ∧
    (∀ r ∈ [mkRequest 1 1704067200000 1706745599000,
            mkRequest 2 1704067200000 1706745599000,
            mkRequest 3 1704067200000 1706745599000], r.perPage = 20 ∧
        r.startDate = (month_start_end_epoch_ms 2024 1).1 ∧
        r.endDate = (month_start_end_epoch_ms 2024 1).2) ∧
    (∀ l, (some (.ok [10, 11, 12, 13]) :
            Option (Except HTTPException (List Nat))) = some (.ok l) →
        l = ([mkRequest 1 1704067200000 1706745599000,
              mkRequest 2 1704067200000 1706745599000,
              mkRequest 3 1704067200000 1706745599000].map
                (fun r => (mock3U r).dataField)).join ∧
        ([mkRequest 1 1704067200000 1706745599000,
          mkRequest 2 1704067200000 1706745599000,
          mkRequest 3 1704067200000 1706745599000] : List Request).length ≠ 0 ∧
        (∀ p, 1 ≤ p → p + 1 < 1 + ([mkRequest 1 1704067200000 1706745599000,
              mkRequest 2 1704067200000 1706745599000,
              mkRequest 3 1704067200000 1706745599000] : List Request).length →
          stopsAt (mock3U (mkRequest p (month_start_end_epoch_ms 2024 1).1
              (month_start_end_epoch_ms 2024 1).2)) p = false) ∧
        stopsAt (mock3U (mkRequest ([mkRequest 1 1704067200000 1706745599000,
              mkRequest 2 1704067200000 1706745599000,
              mkRequest 3 1704067200000 1706745599000] : List Request).length
            (month_start_end_epoch_ms 2024 1).1
            (month_start_end_epoch_ms 2024 1).2))
          ([mkRequest 1 1704067200000 1706745599000,
            mkRequest 2 1704067200000 1706745599000,
            mkRequest 3 1704067200000 1706745599000] : List Request).length = true) :=
  fetch_sessions_pagination mock3U 2024 1 9
    [mkRequest 1 1704067200000 1706745599000,
     mkRequest 2 1704067200000 1706745599000,
     mkRequest 3 1704067200000 1706745599000]
    (some (.ok [10, 11, 12, 13])) (by rfl)

/-- Modelled from the spec's words for claim C1: the continuation test with
`currentPage` and `lastPage` each defaulting to **1** when absent (the code
defaults them to the current page counter instead). -/
def stopsAtDefaultOne (resp : HttpResp α) : Bool :=
  resp.currentPage.getD 1 ≥ resp.lastPage.getD 1

/-- Modelled from the spec's words for claim C1: the same paginated fetch
loop, but deciding continuation with `stopsAtDefaultOne`. -/
def fetchLoopDefaultOne (u : Request → HttpResp α) (s e : Int) :
    Nat → List α → Nat → List Request × Option (Except HTTPException (List α))
  | _, _, 0 => ([], none)
  | page, acc, fuel + 1 =>
    let req := mkRequest page s e
    let resp := u req
    if resp.status ≠ 200 then
      ([req], some (.error ⟨resp.status, resp.text⟩))
    else
      let acc' := acc ++ resp.dataField
      if stopsAtDefaultOne resp then
        ([req], some (.ok acc'))
      else
        let rest := fetchLoopDefaultOne u s e (page + 1) acc' fuel
        (req :: rest.1, rest.2)

/-- Modelled from the spec's words for claim C1: `fetch_sessions` built on
the default-to-1 loop. -/
def fetch_sessionsDefaultOne (u : Request → HttpResp α) (year month : Int)
    (fuel : Nat) : List Request × Option (Except HTTPException (List α)) :=
  ((fetchLoopDefaultOne u (month_start_end_epoch_ms year month).1
      (month_start_end_epoch_ms year month).2 1 [] fuel).1,
   ((fetchLoopDefaultOne u (month_start_end_epoch_ms year month).1
      (month_start_end_epoch_ms year month).2 1 [] fuel).2).map postCheck)

/-- Upstream whose page-2 envelope has `lastPage = 2` but no `currentPage`:
the code (defaulting `currentPage` to the page counter 2) stops after page
2, while the claimed default-to-1 rule would continue to page 3. -/
def cxDefaultU : Request → HttpResp Nat := fun r =>
  if r.page = 1 then ⟨200, "", [1], some 1, some 2⟩
  else if r.page = 2 then ⟨200, "", [2], none, some 2⟩
  else ⟨200, "", [99], some 5, some 5⟩

/-- Counterexample to C1 as stated: on `cxDefaultU` the code stops after
page 2 and returns the records of pages 1-2, whereas the fetch described by
the claim (envelope fields defaulting to 1 when absent) would fetch page 3
as well — so the claimed stopping rule does not describe the code. -/
theorem fetch_default_one_counterexample :
    (fetch_sessions cxDefaultU 2024 1 9).2 = some (.ok [1, 2]) ∧
    (fetch_sessionsDefaultOne cxDefaultU 2024 1 9).2 = some (.ok [1, 2, 99]) :=
  ⟨by rfl, by rfl⟩

/-- C3: a non-2xx upstream response at any page aborts the fetch
immediately: only that page's request is issued from that point on, the
resulting error carries exactly the upstream status code and response body,
and the records accumulated from earlier pages (any `acc`) are discarded —
the outcome does not depend on `acc` nor on the upstream beyond this page. -/
theorem fetch_aborts_on_non2xx (u : Request → HttpResp α) (s e : Int)
    (page : Nat) (acc : List α) (fuel : Nat)
    (h : (u (mkRequest page s e)).status < 200 ∨ 299 < (u (mkRequest page s e)).status) :
    fetchLoop u s e page acc (fuel + 1) =
      ([mkRequest page s e],
       some (.error ⟨(u (mkRequest page s e)).status, (u (mkRequest page s e)).text⟩)) := by
  rw [fetchLoop_succ]
  rw [if_pos (by omega : ¬ (u (mkRequest page s e)).status = 200)]

/-- Upstream that answers page 1 normally (with more pages to come) and
fails page 2 with a 500 and body "boom". -/
def failPage2U : Request → HttpResp Nat := fun r =>
  if r.page = 1 then ⟨200, "", [10], some 1, some 3⟩
  else ⟨500, "boom", [], none, none⟩

/-- Witness for C3: on `failPage2U`, the loop state at page 2 (records of
page 1 already accumulated) aborts with exactly status 500 and body "boom",
discarding the accumulated records; the whole fetch fails the same way. -/
theorem fetch_aborts_on_non2xx_witness :
    ((500 < 200 ∨ 299 < 500) ∧
      fetchLoop failPage2U 0 1 2 [10] 8 =
        ([mkRequest 2 0 1], some (.error ⟨500, "boom"⟩))) ∧
    (fetch_sessions failPage2U 2024 1 9).2 = some (.error ⟨500, "boom"⟩) := by
  refine ⟨⟨by omega, ?_⟩, by rfl⟩
  have := fetch_aborts_on_non2xx failPage2U 0 1 2 [10] 7 (by right; decide)
  simpa using this

/-- C4: if pagination completes with all pages succeeding, the fetch fails
with `noDataError` exactly when the accumulated list is empty, and a
non-empty accumulation is returned as-is (never `noDataError`). -/
theorem fetch_noData_iff (u : Request → HttpResp α) (s e : Int) (fuel : Nat)
    (tr : List Request) (l : List α)
    (h : fetchLoop u s e 1 [] fuel = (tr, some (.ok l))) :
    ((fetchSessionsWith u s e fuel).2 = some (.error noDataError) ↔ l = []) ∧
    (l ≠ [] → fetchSessionsWith u s e fuel = (tr, some (.ok l))) := by
  unfold fetchSessionsWith
  rw [h]
  rcases l with _ | ⟨a, l'⟩
  · simp [postCheck]
  · simp [postCheck, noDataError]

/-- Upstream returning a single empty page (`currentPage = lastPage = 1`). -/
def emptyU : Request → HttpResp Nat := fun _ => ⟨200, "", [], some 1, some 1⟩

/-- Witness for C4: with `emptyU` the pagination succeeds with an empty
accumulation and the fetch raises exactly `noDataError`. -/
theorem fetch_noData_iff_witness :
    ((fetchSessionsWith emptyU 0 1 5).2 = some (.error noDataError) ↔
        ([] : List Nat) = []) ∧
    (([] : List Nat) ≠ [] → fetchSessionsWith emptyU 0 1 5 =
        ([mkRequest 1 0 1], some (.ok ([] : List Nat)))) :=
  fetch_noData_iff emptyU 0 1 5 [mkRequest 1 0 1] [] (by rfl)

/-! ## The CSV exporter (`generate_csv`, src/main.py:113) -/

/-- One timelog entry `{start, end}` of a participant; `none` models an
absent key (and a JSON `null` value, which `dict.get` returns as `None`
just like an absent key). -/
structure TimelogEntry where
  start : Option JVal
  «end» : Option JVal
deriving DecidableEq, Repr

/-- A participant record.  `p.get("timelog", [])` makes an absent timelog
indistinguishable from an empty one, so the field is a plain list. -/
structure Participant where
  participantId : Option JVal
  name : Option JVal
  timelog : List TimelogEntry
deriving DecidableEq, Repr

/-- A session record; `sess.get("participants", [])` likewise flattens an
absent participant list to `[]`. -/
structure Session where
  id : Option JVal
  roomId : Option JVal
  start : Option JVal
  «end» : Option JVal
  status : Option JVal
  participants : List Participant
deriving DecidableEq, Repr

/-- `max(len(sess.get("participants", [])) for sess in all_sessions)`
(src/main.py:117): `none` models the `ValueError` Python's `max` raises on
an empty sequence. -/
def actualMaxParticipants : List Session → Option Nat
  | [] => none
  | x :: xs => some (xs.foldl (fun a ss => max a ss.participants.length)
      x.participants.length)

/-- Column-count resolution (src/main.py:120): the actual maximum when
`participant_columns` is `None` or `0`, else `max(0, participant_columns)`.
The actual maximum is computed first in the source, so an empty session
list is `none` (a `ValueError`) regardless of `participant_columns`. -/
def resolveDesiredMax (sessions : List Session) (participant_columns : Option Int) :
    Option Nat :=
  match actualMaxParticipants sessions with
  | none => none
  | some am =>
    some (match participant_columns with
          | none => am
          | some 0 => am
          | some v => (max 0 v).toNat)

/-- The four per-slot header names (src/main.py:122-126). -/
def participantHeaders (i : Nat) : List String :=
  [s!"participant{i}_id", s!"participant{i}_name",
   s!"participant{i}_first_start", s!"participant{i}_last_end"]

/-- The full CSV header row (src/main.py:121-126). -/
def csvHeaders (desired : Nat) : List String :=
  ["session_id", "room_id", "session_start_time", "session_end_time",
   "status", "number_of_participants"]
  ++ (List.range' 1 desired).bind participantHeaders

/-- `first_start` of a participant (src/main.py:144-149): empty string
unless the timelog is non-empty and some entry has a truthy `start`, in
which case the Python `min` of those raw values. -/
def firstStartOf (tl : List TimelogEntry) : JVal :=
  if tl.isEmpty then .jstr ""
  else match pymin (tl.filterMap (fun t => t.start.filter truthy)) with
       | some v => v
       | none => .jstr ""

/-- `last_end` of a participant (src/main.py:144-150): empty string unless
some entry has a truthy `end`, in which case the Python `max` of those
raw values. -/
def lastEndOf (tl : List TimelogEntry) : JVal :=
  if tl.isEmpty then .jstr ""
  else match pymax (tl.filterMap (fun t => t.«end».filter truthy)) with
       | some v => v
       | none => .jstr ""

/-- The four cells written for one present participant
(src/main.py:152-155). -/
def participantCells (p : Participant) : List JVal :=
  [p.participantId.getD (.jstr ""), p.name.getD (.jstr ""),
   firstStartOf p.timelog, lastEndOf p.timelog]

/-- The four empty cells written for a slot beyond the session's actual
participants (src/main.py:157-161). -/
def emptyParticipantCells : List JVal := [.jstr "", .jstr "", .jstr "", .jstr ""]

/-- One CSV data row (src/main.py:133-163), cells in header order: the six
fixed columns, then the cells of the first `desired` participants, then
empty cells for the remaining slots up to `desired`. -/
def sessionRow (desired : Nat) (sess : Session) : List JVal :=
  [sess.id.getD (.jstr ""), sess.roomId.getD (.jstr ""),
   sess.start.getD (.jstr ""), sess.«end».getD (.jstr ""),
   sess.status.getD (.jstr ""), .jnum sess.participants.length]
  ++ (sess.participants.take desired).bind participantCells
  ++ (List.replicate (desired - (sess.participants.take desired).length)
        emptyParticipantCells).join

/-- The pure content of the CSV file `generate_csv` writes: header row and
one data row per session, in input order.  `none` models the `ValueError`
of the empty-sequence `max` (src/main.py:117). -/
def generate_csv_rows (sessions : List Session) (participant_columns : Option Int) :
    Option (List String × List (List JVal)) :=
  match resolveDesiredMax sessions participant_columns with
  | none => none
  | some desired => some (csvHeaders desired, sessions.map (sessionRow desired))

/-- The full `/generate-csv` pipeline (src/main.py:113-166): fetch, then
build the CSV.  Outer `none` = fetch fuel exhausted; `.error` = the
`HTTPException` from the fetch; inner `none` = the unreachable empty-`max`
`ValueError`. -/
def generate_csv (u : Request → HttpResp Session) (year month : Int)
    (participant_columns : Option Int) (fuel : Nat) :
    Option (Except HTTPException (Option (List String × List (List JVal)))) :=
  match (fetch_sessions u year month fuel).2 with
  | none => none
  | some (.error er) => some (.error er)
  | some (.ok l) => some (.ok (generate_csv_rows l participant_columns))

/-- The 0-based participant slot `i` of a data row: the four cells at
offsets `6 + 4*i .. 6 + 4*i + 3`. -/
def rowSlot (row : List JVal) (i : Nat) : List JVal := (row.drop (6 + 4 * i)).take 4

/-! ## C5: column resolution, truncation and padding -/

theorem join_blocks_length (bs : List (List γ)) (h4 : ∀ b ∈ bs, b.length = 4) :
    bs.join.length = 4 * bs.length := by
  induction bs with
  | nil => simp
  | cons b bs ih =>
    simp only [List.join_cons, List.length_append, List.length_cons]
    rw [h4 b (by simp), ih (fun b' hb' => h4 b' (by simp [hb']))]
    ring

theorem join_blocks_slot (bs : List (List γ)) (rest : List γ)
    (h4 : ∀ b ∈ bs, b.length = 4) :
    ∀ i (hi : i < bs.length),
      ((bs.join ++ rest).drop (4 * i)).take 4 = bs.get ⟨i, hi⟩ := by
  induction bs with
  | nil => intro i hi; simp at hi
  | cons b bs ih =>
    intro i hi
    cases i with
    | zero =>
      have hb : b.length = 4 := h4 b (by simp)
      simp only [Nat.mul_zero, List.drop_zero, List.join_cons, List.append_assoc]
      rw [← hb, List.take_left]
      rfl
    | succ i =>
      have hb : b.length = 4 := h4 b (by simp)
      simp only [List.join_cons, List.append_assoc]
      have h41 : 4 * (i + 1) = b.length + 4 * i := by omega
      rw [h41, List.drop_append]
      exact ih (fun b' hb' => h4 b' (by simp [hb'])) i (by simpa using hi)

/-- The participant-slot blocks of a row: the cells of the first `desired`
participants folluwed by empty blocks up to `desired`. -/
def rowBlocks (desired : Nat) (sess : Session) : List (List JVal) :=
  (sess.participants.take desired).map participantCells
    ++ List.replicate (desired - (sess.participants.take desired).length)
         emptyParticipantCells

theorem sessionRow_eq_blocks (desired : Nat) (sess : Session) :
    sessionRow desired sess
      = [sess.id.getD (.jstr ""), sess.roomId.getD (.jstr ""),
         sess.start.getD (.jstr ""), sess.«end».getD (.jstr ""),
         sess.status.getD (.jstr ""), .jnum sess.participants.length]
        ++ (rowBlocks desired sess).join := by
  unfold sessionRow rowBlocks
  simp only [List.flatten_append, List.flatMap_def, List.append_assoc]

theorem rowBlocks_length (desired : Nat) (sess : Session) :
    (rowBlocks desired sess).length = desired := by
  simp only [rowBlocks, List.length_append, List.length_map, List.length_take,
    List.length_replicate]
  omega

theorem rowBlocks_all4 (desired : Nat) (sess : Session) :
    ∀ b ∈ rowBlocks desired sess, b.length = 4 := by
  intro b hb
  simp only [rowBlocks, List.mem_append, List.mem_map, List.mem_replicate] at hb
  rcases hb with ⟨p, _, rfl⟩ | ⟨_, rfl⟩
  · rfl
  · rfl

theorem rowSlot_sessionRow (desired : Nat) (sess : Session) (i : Nat) :
    rowSlot (sessionRow desired sess) i
      = (((rowBlocks desired sess).join).drop (4 * i)).take 4 := by
  rw [rowSlot, sessionRow_eq_blocks]
  congr 1
  have h6 : 6 + 4 * i =
      ([sess.id.getD (.jstr ""), sess.roomId.getD (.jstr ""),
        sess.start.getD (.jstr ""), sess.«end».getD (.jstr ""),
        sess.status.getD (.jstr ""), .jnum sess.participants.length] : List JVal).length
        + 4 * i := by simp
  rw [h6, List.drop_append]

theorem rowBlocks_get_lt (desired : Nat) (sess : Session) (i : Nat)
    (h1 : i < (rowBlocks desired sess).length) (h2 : i < sess.participants.length) :
    (rowBlocks desired sess).get ⟨i, h1⟩
      = participantCells (sess.participants.get ⟨i, h2⟩) := by
  rw [rowBlocks_length] at h1
  have hlt : i < ((sess.participants.take desired).map participantCells).length := by
    simp only [List.length_map, List.length_take]
    omega
  simp only [rowBlocks, List.get_eq_getElem, List.getElem_append_left hlt,
    List.getElem_map, List.getElem_take]

theorem rowBlocks_get_ge (desired : Nat) (sess : Session) (i : Nat)
    (h1 : i < (rowBlocks desired sess).length)
    (h2 : min desired sess.participants.length ≤ i) :
    (rowBlocks desired sess).get ⟨i, h1⟩ = emptyParticipantCells := by
  rw [rowBlocks_length] at h1
  have hge : ((sess.participants.take desired).map participantCells).length ≤ i := by
    simp only [List.length_map, List.length_take]
    omega
  simp only [rowBlocks, List.get_eq_getElem, List.getElem_append_right hge,
    List.getElem_replicate]

/-- C5: with a non-empty session list and a non-negative
`participant_columns`, the exporter resolves the participant-column count
to the maximum participant count over all sessions when the parameter is
unset or zero and to the supplied integer otherwise; each data row has
exactly that many four-cell participant slots, slot `i` holds the cells of
participant `i` for `i` below `min(resolved, actual)` (so excess
participants are silently truncated), the remaining slots are four empty
strings, and the `number_of_participants` cell is always the session's
actual participant count. -/
theorem generate_csv_columns (sessions : List Session) (pc : Option Int)
    (hne : sessions ≠ []) (hnn : ∀ v, pc = some v → 0 ≤ v) :
    ∃ desired : Nat,
      resolveDesiredMax sessions pc = some desired ∧
      ((pc = none ∨ pc = some 0) → some desired = actualMaxParticipants sessions) ∧
      (∀ v, pc = some v → v ≠ 0 → (desired : Int) = v) ∧
      generate_csv_rows sessions pc
        = some (csvHeaders desired, sessions.map (sessionRow desired)) ∧
      ∀ sess ∈ sessions,
        (sessionRow desired sess).length = 6 + 4 * desired ∧
        (sessionRow desired sess)[5]? = some (.jnum sess.participants.length) ∧
        (∀ i (hi : i < min desired sess.participants.length),
          rowSlot (sessionRow desired sess) i
            = participantCells (sess.participants.get
                ⟨i, lt_of_lt_of_le hi (min_le_right _ _)⟩)) ∧
        (∀ i, min desired sess.participants.length ≤ i → i < desired →
          rowSlot (sessionRow desired sess) i = emptyParticipantCells) := by
  obtain ⟨am, ham⟩ : ∃ am, actualMaxParticipants sessions = some am := by
    rcases sessions with _ | ⟨s0, rest⟩
    · exact absurd rfl hne
    · exact ⟨_, rfl⟩
  have hres : ∃ desired, resolveDesiredMax sessions pc = some desired ∧
      ((pc = none ∨ pc = some 0) → desired = am) ∧
      (∀ v, pc = some v → v ≠ 0 → (desired : Int) = v) := by
    rcases pc with _ | v
    · exact ⟨am, by simp [resolveDesiredMax, ham], by simp, by simp⟩
    · by_cases hv : v = 0
      · subst hv
        exact ⟨am, by simp [resolveDesiredMax, ham], by simp, by simp⟩
      · have hv0 : 0 ≤ v := hnn v rfl
        have hstep : resolveDesiredMax sessions (some v) = some ((max 0 v).toNat) := by
          simp only [resolveDesiredMax, ham]
        refine ⟨(max 0 v).toNat, hstep, by simp [hv], ?_⟩
        intro w hw _
        obtain rfl : v = w := Option.some.inj hw
        rw [max_eq_right hv0, Int.toNat_of_nonneg hv0]
  obtain ⟨desired, hres1, hres2, hres3⟩ := hres
  refine ⟨desired, hres1, fun h => by rw [hres2 h, ham], hres3, ?_, ?_⟩
  · simp [generate_csv_rows, hres1]
  · intro sess _
    refine ⟨?_, ?_, ?_, ?_⟩
    · rw [sessionRow_eq_blocks]
      simp only [List.length_append, List.length_cons, List.length_nil]
      rw [join_blocks_length _ (rowBlocks_all4 desired sess), rowBlocks_length]
    · rw [sessionRow_eq_blocks]
      rw [List.getElem?_append_left (by simp)]
      rfl
    · intro i hi
      rw [rowSlot_sessionRow]
      have h1 : i < (rowBlocks desired sess).length := by
        rw [rowBlocks_length]; exact lt_of_lt_of_le hi (min_le_left _ _)
      have := join_blocks_slot (rowBlocks desired sess) []
        (rowBlocks_all4 desired sess) i h1
      simp only [List.append_nil] at this
      rw [this, rowBlocks_get_lt desired sess i h1
        (lt_of_lt_of_le hi (min_le_right _ _))]
    · intro i hi1 hi2
      rw [rowSlot_sessionRow]
      have h1 : i < (rowBlocks desired sess).length := by
        rw [rowBlocks_length]; exact hi2
      have := join_blocks_slot (rowBlocks desired sess) []
        (rowBlocks_all4 desired sess) i h1
      simp only [List.append_nil] at this
      rw [this, rowBlocks_get_ge desired sess i h1 hi1]

/-! ## C6: first_start / last_end as min / max -/

theorem jle_refl (a : JVal) : jle a a = true := by
  cases a <;> simp [jle, jlt]

theorem jlt_asymm (a b : JVal) (h : jlt a b = true) : jle a b = true := by
  cases a <;> cases b <;> simp_all [jle, jlt] <;>
    first
      | omega
      | exact asymm h
      | exact le_of_lt h

theorem jle_trans (a b c : JVal) (h1 : jle a b = true) (h2 : jle b c = true) :
    jle a c = true := by
  cases a <;> cases b <;> cases c <;> simp_all [jle, jlt] <;>
    first
      | omega
      | exact le_trans h1 h2

/-- The fold of Python `min` keeps an element of the list that is a lower
bound (w.r.t. `jle`) of everything seen. -/
theorem pymin_fold_spec (xs : List JVal) : ∀ m : JVal,
    (xs.foldl (fun m v => if jlt v m then v else m) m) ∈ m :: xs ∧
    ∀ w ∈ m :: xs, jle (xs.foldl (fun m v => if jlt v m then v else m) m) w = true := by
  induction xs with
  | nil => exact fun m => ⟨by simp, by simp [jle_refl]⟩
  | cons v xs ih =>
    intro m
    simp only [List.foldl_cons]
    set m' := if jlt v m then v else m with hm'
    obtain ⟨ihm, ihb⟩ := ih m'
    have hm'cases : m' = v ∨ m' = m := by
      by_cases h : jlt v m = true <;> simp [hm', h]
    have hself : jle (xs.foldl (fun m v => if jlt v m then v else m) m') m' = true :=
      ihb m' (by simp)
    have hm'm : jle m' m = true := by
      by_cases h : jlt v m = true
      · simpa [hm', h] using jlt_asymm v m h
      · simp [hm', h, jle_refl]
    have hm'v : jle m' v = true := by
      by_cases h : jlt v m = true
      · simp [hm', h, jle_refl]
      · have hf : jlt v m = false := by simpa using h
        simp [hm', h, jle, hf]
    refine ⟨?_, ?_⟩
    · rcases List.mem_cons.mp ihm with he | ht
      · rcases hm'cases with h1 | h1
        · rw [he, h1]; simp
        · rw [he, h1]; simp
      · simp [ht]
    · intro w hw
      rcases List.mem_cons.mp hw with he | hw'
      · rw [he]
        exact jle_trans _ _ _ hself hm'm
      · rcases List.mem_cons.mp hw' with he | hin
        · rw [he]
          exact jle_trans _ _ _ hself hm'v
        · exact ihb w (by simp [hin])

/-- The fold of Python `max` keeps an element of the list that is an upper
bound (w.r.t. `jle`) of everything seen. -/
theorem pymax_fold_spec (xs : List JVal) : ∀ m : JVal,
    (xs.foldl (fun m v => if jlt m v then v else m) m) ∈ m :: xs ∧
    ∀ w ∈ m :: xs, jle w (xs.foldl (fun m v => if jlt m v then v else m) m) = true := by
  induction xs with
  | nil => exact fun m => ⟨by simp, by simp [jle_refl]⟩
  | cons v xs ih =>
    intro m
    simp only [List.foldl_cons]
    set m' := if jlt m v then v else m with hm'
    obtain ⟨ihm, ihb⟩ := ih m'
    have hm'cases : m' = v ∨ m' = m := by
      by_cases h : jlt m v = true <;> simp [hm', h]
    have hself : jle m' (xs.foldl (fun m v => if jlt m v then v else m) m') = true :=
      ihb m' (by simp)
    have hmm' : jle m m' = true := by
      by_cases h : jlt m v = true
      · simpa [hm', h] using jlt_asymm m v h
      · simp [hm', h, jle_refl]
    have hvm' : jle v m' = true := by
      by_cases h : jlt m v = true
      · simp [hm', h, jle_refl]
      · have hf : jlt m v = false := by simpa using h
        simp [hm', h, jle, hf]
    refine ⟨?_, ?_⟩
    · rcases List.mem_cons.mp ihm with he | ht
      · rcases hm'cases with h1 | h1
        · rw [he, h1]; simp
        · rw [he, h1]; simp
      · simp [ht]
    · intro w hw
      rcases List.mem_cons.mp hw with he | hw'
      · rw [he]
        exact jle_trans _ _ _ hmm' hself
      · rcases List.mem_cons.mp hw' with he | hin
        · rw [he]
          exact jle_trans _ _ _ hvm' hself
        · exact ihb w (by simp [hin])

theorem pymin_spec (l : List JVal) (v : JVal) (h : pymin l = some v) :
    v ∈ l ∧ ∀ w ∈ l, jle v w = true := by
  rcases l with _ | ⟨x, xs⟩
  · simp [pymin] at h
  · obtain rfl : xs.foldl (fun m v => if jlt v m then v else m) x = v := by
      simpa [pymin] using h
    exact pymin_fold_spec xs x

theorem pymax_spec (l : List JVal) (v : JVal) (h : pymax l = some v) :
    v ∈ l ∧ ∀ w ∈ l, jle w v = true := by
  rcases l with _ | ⟨x, xs⟩
  · simp [pymax] at h
  · obtain rfl : xs.foldl (fun m v => if jlt m v then v else m) x = v := by
      simpa [pymax] using h
    exact pymax_fold_spec xs x

theorem firstStartOf_eq (tl : List TimelogEntry) :
    firstStartOf tl
      = (match pymin (tl.filterMap (fun t => t.start.filter truthy)) with
         | some v => v
         | none => .jstr "") := by
  cases tl <;> rfl

theorem lastEndOf_eq (tl : List TimelogEntry) :
    lastEndOf tl
      = (match pymax (tl.filterMap (fun t => t.«end».filter truthy)) with
         | some v => v
         | none => .jstr "") := by
  cases tl <;> rfl

/-- C6 (amended): `first_start` is the minimum — w.r.t. the raw-value order
`jle` (numbers by value, strings lexicographically, no coercion) — of the
start values that are present *and truthy* in the participant's timelog,
and the empty string when there are none (e.g. an empty timelog);
symmetrically `last_end` is the maximum of the present-and-truthy end
values. -/
theorem first_start_last_end_minmax (tl : List TimelogEntry) :
    (tl.filterMap (fun t => t.start.filter truthy) = [] →
        firstStartOf tl = .jstr "") ∧
    (∀ v, pymin (tl.filterMap (fun t => t.start.filter truthy)) = some v →
        firstStartOf tl = v ∧ v ∈ tl.filterMap (fun t => t.start.filter truthy) ∧
        ∀ w ∈ tl.filterMap (fun t => t.start.filter truthy), jle v w = true) ∧
    (tl.filterMap (fun t => t.«end».filter truthy) = [] →
        lastEndOf tl = .jstr "") ∧
    (∀ v, pymax (tl.filterMap (fun t => t.«end».filter truthy)) = some v →
        lastEndOf tl = v ∧ v ∈ tl.filterMap (fun t => t.«end».filter truthy) ∧
        ∀ w ∈ tl.filterMap (fun t => t.«end».filter truthy), jle w v = true) := by
  refine ⟨?_, ?_, ?_, ?_⟩
  · intro h
    rw [firstStartOf_eq, h]
    rfl
  · intro v hv
    obtain ⟨hmem, hbd⟩ := pymin_spec _ v hv
    rw [firstStartOf_eq, hv]
    exact ⟨rfl, hmem, hbd⟩
  · intro h
    rw [lastEndOf_eq, h]
    rfl
  · intro v hv
    obtain ⟨hmem, hbd⟩ := pymax_spec _ v hv
    rw [lastEndOf_eq, hv]
    exact ⟨rfl, hmem, hbd⟩

/-- Counterexample to C6 as stated: a timelog whose only entry has the
*present* start value 0.  The present start values are `[0]`, whose
minimum is 0, yet the exporter emits the empty string: the code filters on
Python truthiness, not on presence. -/
theorem first_start_present_counterexample :
    ([⟨some (.jnum 0), some (.jnum 20)⟩] : List TimelogEntry).filterMap
        (fun t => t.start) = [.jnum 0] ∧
    firstStartOf [⟨some (.jnum 0), some (.jnum 20)⟩] = .jstr "" ∧
    (JVal.jstr "" : JVal) ≠ .jnum 0 :=
  ⟨rfl, rfl, by decide⟩

/-- Witness for C6 on the spec's example: timelog
`[{start:10,end:20},{start:5,end:15}]` yields first_start 5 and last_end
20, and the empty timelog yields empty strings. -/
theorem first_start_last_end_minmax_witness :
    firstStartOf [⟨some (.jnum 10), some (.jnum 20)⟩,
                  ⟨some (.jnum 5), some (.jnum 15)⟩] = .jnum 5 ∧
    lastEndOf [⟨some (.jnum 10), some (.jnum 20)⟩,
               ⟨some (.jnum 5), some (.jnum 15)⟩] = .jnum 20 ∧
    firstStartOf [] = .jstr "" ∧ lastEndOf [] = .jstr "" := by
  obtain ⟨_, h2, _, h4⟩ := first_start_last_end_minmax
    [⟨some (.jnum 10), some (.jnum 20)⟩, ⟨some (.jnum 5), some (.jnum 15)⟩]
  obtain ⟨e1, _, e3, _⟩ := first_start_last_end_minmax ([] : List TimelogEntry)
  exact ⟨(h2 (.jnum 5) (by rfl)).1, (h4 (.jnum 20) (by rfl)).1, e1 rfl, e3 rfl⟩

/-- C10: a timelog entry whose `start` (resp. `end`) is falsy — absent or
null, 0, or the empty string — is excluded from the first_start (resp.
last_end) computation wherever it occurs in the timelog: dropping such an
entry from any position never changes the result, and a participant all of
whose entries have start 0 gets the empty string rather than 0. -/
theorem falsy_timelog_excluded (t : TimelogEntry) (l1 l2 : List TimelogEntry) :
    ((t.start = none ∨ t.start = some .jnull ∨ t.start = some (.jnum 0) ∨
        t.start = some (.jstr "")) →
      firstStartOf (l1 ++ t :: l2) = firstStartOf (l1 ++ l2)) ∧
    ((t.«end» = none ∨ t.«end» = some .jnull ∨ t.«end» = some (.jnum 0) ∨
        t.«end» = some (.jstr "")) →
      lastEndOf (l1 ++ t :: l2) = lastEndOf (l1 ++ l2)) ∧
    (∀ tl' : List TimelogEntry, (∀ t' ∈ tl', t'.start = some (.jnum 0)) →
      firstStartOf tl' = .jstr "") := by
  refine ⟨?_, ?_, ?_⟩
  · intro h
    have hf : t.start.filter truthy = none := by
      rcases h with h | h | h | h <;> rw [h] <;> rfl
    rw [firstStartOf_eq, firstStartOf_eq, List.filterMap_append,
      List.filterMap_append, List.filterMap_cons, hf]
  · intro h
    have hf : t.«end».filter truthy = none := by
      rcases h with h | h | h | h <;> rw [h] <;> rfl
    rw [lastEndOf_eq, lastEndOf_eq, List.filterMap_append,
      List.filterMap_append, List.filterMap_cons, hf]
  · intro tl' h
    have hempty : tl'.filterMap (fun t' => t'.start.filter truthy) = [] := by
      induction tl' with
      | nil => rfl
      | cons a as iha =>
        have ha := h a (by simp)
        rw [List.filterMap_cons, ha]
        exact iha (fun t' ht' => h t' (by simp [ht']))
    rw [firstStartOf_eq, hempty]
    rfl

/-- Witness for C10: dropping a `{start: 0, end: null}` entry that comes
*after* a truthy one changes neither first_start nor last_end, and a
participant whose entries all have start 0 gets the empty string. -/
theorem falsy_timelog_excluded_witness :
    firstStartOf [⟨some (.jnum 5), some (.jnum 7)⟩, ⟨some (.jnum 0), some .jnull⟩]
      = firstStartOf [⟨some (.jnum 5), some (.jnum 7)⟩] ∧
    lastEndOf [⟨some (.jnum 5), some (.jnum 7)⟩, ⟨some (.jnum 0), some .jnull⟩]
      = lastEndOf [⟨some (.jnum 5), some (.jnum 7)⟩] ∧
    firstStartOf [⟨some (.jnum 0), none⟩, ⟨some (.jnum 0), none⟩] = .jstr "" := by
  obtain ⟨h1, h2, h3⟩ := falsy_timelog_excluded ⟨some (.jnum 0), some .jnull⟩
    [⟨some (.jnum 5), some (.jnum 7)⟩] []
  exact ⟨h1 (Or.inr (Or.inr (Or.inl rfl))), h2 (Or.inr (Or.inl rfl)),
         h3 [⟨some (.jnum 0), none⟩, ⟨some (.jnum 0), none⟩] (by decide)⟩

/-- Participant A of the spec's exporter test. -/
def pA : Participant :=
  ⟨some (.jstr "A"), some (.jstr "Alice"),
   [⟨some (.jnum 10), some (.jnum 20)⟩, ⟨some (.jnum 5), some (.jnum 15)⟩]⟩

/-- Participant B of the spec's exporter test. -/
def pB : Participant := ⟨some (.jstr "B"), some (.jstr "Bob"), []⟩

/-- The spec's exporter test session with participants `[A, B]`. -/
def sAB : Session :=
  ⟨some (.jstr "s1"), some (.jstr "r1"), some (.jnum 1), some (.jnum 2),
   some (.jstr "ended"), [pA, pB]⟩

/-- Witness for C5: one session with participants `[A, B]` and
`participant_columns = 1` resolves to one slot holding A's cells, while
`number_of_participants` still reads 2; with the parameter unset it
resolves to the actual maximum 2. -/
theorem generate_csv_columns_witness :
    resolveDesiredMax [sAB] (some 1) = some 1 ∧
    rowSlot (sessionRow 1 sAB) 0 = participantCells pA ∧
    (sessionRow 1 sAB)[5]? = some (.jnum 2) ∧
    resolveDesiredMax [sAB] none = some 2 := by
  obtain ⟨d, h1, _, h3, _, h5⟩ :=
    generate_csv_columns [sAB] (some 1) (by simp)
      (fun v hv => by obtain rfl := Option.some.inj hv; norm_num)
  have hd : d = 1 := by
    have := h3 1 rfl one_ne_zero
    omega
  subst hd
  obtain ⟨_, hcell, hslot, _⟩ := h5 sAB (by simp)
  obtain ⟨d', h1', h2', _, _, _⟩ :=
    generate_csv_columns [sAB] none (by simp) (fun v hv => by cases hv)
  have hd' : d' = 2 := by
    have h := h2' (Or.inl rfl)
    have hval : actualMaxParticipants [sAB] = some 2 := rfl
    rw [hval] at h
    exact Option.some.inj h
  subst hd'
  exact ⟨h1, hslot 0 (by decide), hcell, h1'⟩

/-- C9: a successful fetch always returns a non-empty session list, so the
`max(...)` reduction over sessions (and with it the whole CSV generation)
never hits its empty-sequence `ValueError` branch. -/
theorem max_reduction_unreachable (u : Request → HttpResp Session)
    (year month : Int) (fuel : Nat) (tr : List Request) (l : List Session)
    (h : fetch_sessions u year month fuel = (tr, some (.ok l))) :
    l ≠ [] ∧ (actualMaxParticipants l).isSome ∧
    ∀ pc, (generate_csv_rows l pc).isSome ∧
      generate_csv u year month pc fuel = some (.ok (generate_csv_rows l pc)) := by
  have h' : fetchSessionsWith u (month_start_end_epoch_ms year month).1
      (month_start_end_epoch_ms year month).2 fuel = (tr, some (.ok l)) := h
  have hne : l ≠ [] := (fetchSessionsWith_ok_inv h').2
  rcases l with _ | ⟨a, l'⟩
  · exact absurd rfl hne
  · refine ⟨hne, rfl, ?_⟩
    intro pc
    constructor
    · simp [generate_csv_rows, resolveDesiredMax, actualMaxParticipants]
    · simp [generate_csv, h]

/-- One-page upstream delivering a single session. -/
def uOneSess : Request → HttpResp Session := fun _ => ⟨200, "", [sAB], some 1, some 1⟩

/-- Witness for C9 at a concrete successful fetch. -/
theorem max_reduction_unreachable_witness :
    [sAB] ≠ [] ∧ (actualMaxParticipants [sAB]).isSome ∧
    ∀ pc, (generate_csv_rows [sAB] pc).isSome ∧
      generate_csv uOneSess 2024 1 pc 5 = some (.ok (generate_csv_rows [sAB] pc)) :=
  max_reduction_unreachable uOneSess 2024 1 5
    [mkRequest 1 1704067200000 1706745599000] [sAB] (by rfl)

/-! ## C8: the streaming export job (`generate_csv_stream`, src/main.py:168) -/

/-- One server-sent event of the streaming endpoint, keeping the JSON
payload fields the code emits (src/main.py:172-233). -/
inductive StreamEvent where
  | init (message : String)
  | progressFetch (message : String) (progress total : Nat)
  | progressGen (message : String) (progress total : Nat)
  | complete (fileId filename : String)
  | error (message : String)
deriving DecidableEq, Repr

/-- `str(e)` of a `fastapi.HTTPException` as interpolated into the error
event: renders the status code and detail (the exact rendering is
immaterial to the claims, which only need "the exception's message"). -/
def strOfHTTPException (e : HTTPException) : String :=
  s!"{e.status_code}: {e.detail}"

/-- Python dict assignment `csv_files[file_id] = name` on the
insertion-ordered registry: overwrite in place if present, append if new. -/
def dictInsert (m : List (String × String)) (k v : String) :
    List (String × String) :=
  if (m.lookup k).isSome then m.map (fun p => if p.1 = k then (k, v) else p)
  else m ++ [(k, v)]

/-- The row-writing loop of `generate_csv_stream` (src/main.py:194-226),
instrumented with an injected failure point: writing row `idx` raises an
exception when `failRowAt = some idx` (in the pure embedding the row
construction itself cannot raise; this models runtime exceptions inside
the loop).  `rem` is structural fuel, called with exactly the remaining
row count.  Returns the progress events yielded (one per 10 rows and on
the last row) and whether the loop was aborted by the failure. -/
def genLoopEvents (total : Nat) (failRowAt : Option Nat) :
    Nat → Nat → List StreamEvent × Bool
  | _, 0 => ([], false)
  | idx, rem + 1 =>
    if total < idx then ([], false)
    else if failRowAt = some idx then ([], true)
    else
      let evs := if idx % 10 = 0 ∨ idx = total then
          [StreamEvent.progressGen s!"Processing session {idx}/{total}" idx total]
        else []
      let rest := genLoopEvents total failRowAt (idx + 1) rem
      (evs ++ rest.1, rest.2)

/-- Embedding of `generate_csv_stream` (src/main.py:168-234): the sequence
of SSE events the generator yields and the resulting `csv_files` registry.
`file_id` (a fresh `uuid4` in the source) and the temp-file name are
parameters; the file's contents are not modelled, only its registry entry.
The generator's `try/except` turns every exception — the fetch's
`HTTPException`s, the empty-sequence `ValueError` of `max`, or an injected
row-writing failure — into a terminal error event; nothing is re-raised to
the caller.  `none` only when the fetch fuel is exhausted. -/
def generate_csv_stream (u : Request → HttpResp Session) (year month : Int)
    (participant_columns : Option Int) (csv_files : List (String × String))
    (file_id tmpName : String) (failRowAt : Option Nat) (failMsg : String)
    (fuel : Nat) : Option (List StreamEvent × List (String × String)) :=
  match (fetch_sessions u year month fuel).2 with
  | none => none
  | some (.error er) =>
    some ([.init "Fetching sessions...", .error (strOfHTTPException er)], csv_files)
  | some (.ok all_sessions) =>
    let total := all_sessions.length
    let evs0 : List StreamEvent :=
      [.init "Fetching sessions...",
       .progressFetch s!"Fetched {total} sessions" 0 total]
    match resolveDesiredMax all_sessions participant_columns with
    | none => some (evs0 ++ [.error "max() arg is an empty sequence"], csv_files)
    | some _ =>
      let csv_files' := dictInsert csv_files file_id tmpName
      let gl := genLoopEvents total failRowAt 1 total
      if gl.2 then some (evs0 ++ gl.1 ++ [.error failMsg], csv_files')
      else some (evs0 ++ gl.1 ++
        [.complete file_id s!"usage_{year}_{month}.csv"], csv_files')

theorem genLoopEvents_fails (total k : Nat) :
    ∀ (rem idx : Nat), idx ≤ k → k ≤ total → k < idx + rem →
      (genLoopEvents total (some k) idx rem).2 = true := by
  intro rem
  induction rem with
  | zero => intro idx h1 h2 h3; omega
  | succ rem ih =>
    intro idx h1 h2 h3
    rw [genLoopEvents]
    rw [if_neg (by omega : ¬ total < idx)]
    by_cases hik : k = idx
    · rw [if_pos (by rw [hik])]
    · rw [if_neg (by simp only [Option.some.injEq]; exact hik)]
      exact ih (idx + 1) (by omega) h2 (by omega)

/-- C8 (amended): every exception during a streaming export job is caught
and becomes the job's terminal error event carrying the exception's
message; nothing is re-raised to the caller.  A fetch-phase failure leaves
the registry untouched (no file entry is ever created), but an
export-phase failure happens *after* the registry entry was created and
the entry is not removed: the partial output file stays referenced by the
registry. -/
theorem stream_error_handling (u : Request → HttpResp Session) (year month : Int)
    (pc : Option Int) (reg : List (String × String)) (fid tmp : String)
    (failRowAt : Option Nat) (failMsg : String) (fuel : Nat) :
    (∀ er tr, fetch_sessions u year month fuel = (tr, some (.error er)) →
      generate_csv_stream u year month pc reg fid tmp failRowAt failMsg fuel
        = some ([.init "Fetching sessions...",
                 .error (strOfHTTPException er)], reg)) ∧
    (∀ l tr k, fetch_sessions u year month fuel = (tr, some (.ok l)) →
      failRowAt = some k → 1 ≤ k → k ≤ l.length →
      ∃ evs, generate_csv_stream u year month pc reg fid tmp failRowAt failMsg fuel
          = some (evs, dictInsert reg fid tmp) ∧
        evs.getLast? = some (.error failMsg)) := by
  constructor
  · intro er tr h
    simp [generate_csv_stream, h]
  · intro l tr k h hfail hk1 hk2
    have h' : fetchSessionsWith u (month_start_end_epoch_ms year month).1
        (month_start_end_epoch_ms year month).2 fuel = (tr, some (.ok l)) := h
    have hne : l ≠ [] := (fetchSessionsWith_ok_inv h').2
    have hflag : (genLoopEvents l.length (some k) 1 l.length).2 = true :=
      genLoopEvents_fails l.length k l.length 1 hk1 hk2 (by omega)
    rcases l with _ | ⟨a, ls⟩
    · exact absurd rfl hne
    · subst hfail
      refine ⟨[.init "Fetching sessions...",
          .progressFetch s!"Fetched {(a :: ls).length} sessions" 0 (a :: ls).length]
          ++ (genLoopEvents (a :: ls).length (some k) 1 (a :: ls).length).1
          ++ [.error failMsg], ?_, ?_⟩
      · simp only [generate_csv_stream, h, resolveDesiredMax, actualMaxParticipants,
          hflag, if_true]
      · rw [List.getLast?_concat]

/-- Counterexample to C8 as stated: an export-phase failure on the first
row.  The job does terminate with the error event carrying the message,
but the registry still references the partial output file, contradicting
"no partial output file is left referenced by the registry". -/
theorem stream_partial_file_counterexample :
    generate_csv_stream uOneSess 2024 1 none [] "fid" "/tmp/x.csv" (some 1) "boom" 5
      = some ([.init "Fetching sessions...",
               .progressFetch "Fetched 1 sessions" 0 1,
               .error "boom"],
              [("fid", "/tmp/x.csv")]) ∧
    (([("fid", "/tmp/x.csv")] : List (String × String)).lookup "fid")
      = some "/tmp/x.csv" :=
  ⟨rfl, rfl⟩

/-- Upstream that always fails with a 500 and body "boom". -/
def u500S : Request → HttpResp Session := fun _ => ⟨500, "boom", [], none, none⟩

/-- Witness for C8: a fetch-phase failure yields the terminal error event
with the exception's message and an unchanged registry; an export-phase
failure yields the terminal error event but leaves the file referenced. -/
theorem stream_error_handling_witness :
    generate_csv_stream u500S 2024 1 none [] "fid" "/tmp/x.csv" none "" 5
      = some ([.init "Fetching sessions...",
               .error (strOfHTTPException ⟨500, "boom"⟩)], []) ∧
    ∃ evs,
      generate_csv_stream uOneSess 2024 1 none [] "fid" "/tmp/x.csv" (some 1) "boom" 5
        = some (evs, dictInsert [] "fid" "/tmp/x.csv") ∧
      evs.getLast? = some (.error "boom") := by
  obtain ⟨h1, _⟩ :=
    stream_error_handling u500S 2024 1 none [] "fid" "/tmp/x.csv" none "" 5
  obtain ⟨_, h2⟩ :=
    stream_error_handling uOneSess 2024 1 none [] "fid" "/tmp/x.csv" (some 1) "boom" 5
  exact ⟨h1 ⟨500, "boom"⟩ [mkRequest 1 1704067200000 1706745599000] (by rfl),
         h2 [sAB] [mkRequest 1 1704067200000 1706745599000] 1 (by rfl) rfl
           (Nat.le_refl 1) (by decide)⟩

/-! ## C2: the download endpoint (`download_csv`, src/main.py:236) -/

/-- `os.path.basename` for the POSIX paths produced by `tempfile`: the
suffix after the last `/` (computed character by character so that it
evaluates definitionally). -/
def basename (path : String) : String :=
  String.mk (path.data.foldl (fun acc c => if c = '/' then [] else acc ++ [c]) [])

/-- Embedding of `download_csv(file_id)` (src/main.py:236-242) over the
`csv_files` registry: 404 "File not found" when the id is unknown,
otherwise the stored path together with its basename as the suggested
filename.  The registry is returned explicitly to expose that the handler
never deletes the entry. -/
def download_csv (csv_files : List (String × String)) (file_id : String) :
    Except HTTPException (String × String) × List (String × String) :=
  match csv_files.lookup file_id with
  | none => (.error ⟨404, "File not found"⟩, csv_files)
  | some path => (.ok (path, basename path), csv_files)

/-- Counterexample to C2 as stated: downloading the same id twice succeeds
both times — the registry entry is not removed after the first successful
delivery, so the second download does not return NotFound. -/
theorem download_twice_counterexample :
    (download_csv [("a", "/tmp/x.csv")] "a").1 = .ok ("/tmp/x.csv", "x.csv") ∧
    (download_csv (download_csv [("a", "/tmp/x.csv")] "a").2 "a").1
      = .ok ("/tmp/x.csv", "x.csv") :=
  ⟨rfl, rfl⟩

/-- C2 (amended): `download_csv` fails with the 404 "File not found" error
exactly when the id is unknown; on success it delivers the stored path and
its basename, and the registry is unchanged, so a second download of the
same id succeeds again (the entry is *not* removed after delivery). -/
theorem download_csv_spec (reg : List (String × String)) (fid : String) :
    (download_csv reg fid).2 = reg ∧
    (reg.lookup fid = none →
      (download_csv reg fid).1 = .error ⟨404, "File not found"⟩) ∧
    (∀ path, reg.lookup fid = some path →
      (download_csv reg fid).1 = .ok (path, basename path) ∧
      (download_csv (download_csv reg fid).2 fid).1
        = .ok (path, basename path)) := by
  rcases h : reg.lookup fid with _ | p
  · refine ⟨by simp [download_csv, h], fun _ => by simp [download_csv, h], ?_⟩
    intro path hp
    cases hp
  · refine ⟨by simp [download_csv, h], ?_, ?_⟩
    · intro hn
      cases hn
    · intro path hp
      obtain rfl := Option.some.inj hp
      constructor <;> simp [download_csv, h]

/-- Witness for C2: a concrete registry where the first and second
download of the same id both succeed, and an unknown id gives 404. -/
theorem download_csv_spec_witness :
    (download_csv [("a", "/tmp/x.csv")] "a").1
      = .ok ("/tmp/x.csv", basename "/tmp/x.csv") ∧
    (download_csv (download_csv [("a", "/tmp/x.csv")] "a").2 "a").1
      = .ok ("/tmp/x.csv", basename "/tmp/x.csv") ∧
    (download_csv [] "zzz").1 = .error ⟨404, "File not found"⟩ := by
  obtain ⟨_, _, h3⟩ := download_csv_spec [("a", "/tmp/x.csv")] "a"
  obtain ⟨_, h2', _⟩ := download_csv_spec [] "zzz"
  obtain ⟨ha, hb⟩ := h3 "/tmp/x.csv" rfl
  exact ⟨ha, hb, h2' rfl⟩
